import Mathlib

/-!
Verification of the Null-Scan-Tool scan orchestration and findings
aggregation logic. The definitions below are a shallow embedding of the
JavaScript source in `src/web/src/components/` (NetworkScanSection.jsx,
CodeReviewSection.jsx) and the Solidity analysis component. Dynamic JS
values are modelled by the `JSVal` inductive; functions that can raise a
runtime `TypeError` are modelled in the `Except String` monad.
-/

namespace NullScan

/-- Dynamic JavaScript values, restricted to the shapes the scanner
manipulates (JSON data plus `undefined`). -/
inductive JSVal where
  | undefinedVal : JSVal
  | null : JSVal
  | bool : Bool → JSVal
  | num : ℚ → JSVal
  | str : String → JSVal
  | arr : List JSVal → JSVal
  | obj : List (String × JSVal) → JSVal

/-- JavaScript truthiness. -/
def JSVal.truthy : JSVal → Bool
  | .undefinedVal => false
  | .null => false
  | .bool b => b
  | .num q => q != 0
  | .str s => s != ""
  | .arr _ => true
  | .obj _ => true

/-- Property lookup in an object literal; a missing property reads as
`undefined`. -/
def lookupField (kvs : List (String × JSVal)) (k : String) : JSVal :=
  match kvs.find? (fun p => p.1 == k) with
  | some p => p.2
  | none => .undefinedVal

/-- Plain member access `v.k`: throws a TypeError on `null`/`undefined`,
otherwise reads the property (`undefined` on primitives, except the
`length` of strings and arrays). -/
def JSVal.getField : JSVal → String → Except String JSVal
  | .undefinedVal, _ => .error "TypeError: cannot read properties of undefined"
  | .null, _ => .error "TypeError: cannot read properties of null"
  | .obj kvs, k => .ok (lookupField kvs k)
  | .arr xs, k => if k == "length" then .ok (.num xs.length) else .ok .undefinedVal
  | .str s, k => if k == "length" then .ok (.num s.length) else .ok .undefinedVal
  | .bool _, _ => .ok .undefinedVal
  | .num _, _ => .ok .undefinedVal

/-- Optional chaining `v?.k`. -/
def JSVal.optField (v : JSVal) (k : String) : Except String JSVal :=
  match v with
  | .undefinedVal => .ok .undefinedVal
  | .null => .ok .undefinedVal
  | _ => v.getField k

/-- `Object.keys(v)`. -/
def objectKeys : JSVal → Except String (List String)
  | .undefinedVal => .error "TypeError: Object.keys called on undefined"
  | .null => .error "TypeError: Object.keys called on null"
  | .obj kvs => .ok (kvs.map (·.1))
  | .arr xs => .ok ((List.range xs.length).map toString)
  | .str s => .ok ((List.range s.length).map toString)
  | _ => .ok []

/-- `Object.values(v)`. -/
def objectValues : JSVal → Except String (List JSVal)
  | .undefinedVal => .error "TypeError: Object.values called on undefined"
  | .null => .error "TypeError: Object.values called on null"
  | .obj kvs => .ok (kvs.map (·.2))
  | .arr xs => .ok xs
  | .str s => .ok (s.toList.map (fun c => .str c.toString))
  | _ => .ok []

/-- `Array.isArray(v)`. -/
def isArray : JSVal → Bool
  | .arr _ => true
  | _ => false

/-- `typeof v === 'object'` (true for `null`, arrays and objects). -/
def jsTypeofObject : JSVal → Bool
  | .null => true
  | .obj _ => true
  | .arr _ => true
  | _ => false

/-- Strict equality `v === s` against a string literal. -/
def jsStrEq (v : JSVal) (s : String) : Bool :=
  match v with
  | .str t => t == s
  | _ => false

/-- JavaScript `a || b`. -/
def jsOr (a b : JSVal) : JSVal :=
  if a.truthy then a else b

/-- JavaScript `String.prototype.trim`, implemented structurally on the
character list. -/
def jsTrim (s : String) : String :=
  String.mk (((s.toList.dropWhile Char.isWhitespace).reverse.dropWhile
    Char.isWhitespace).reverse)

/-- JavaScript `String.prototype.toLowerCase`, implemented structurally on
the character list. -/
def jsToLower (s : String) : String :=
  String.mk (s.toList.map Char.toLower)

/-! ## CodeReviewSection.jsx: aggregation helpers -/

/-- The record returned by `getNetworkStats`. -/
structure NetworkStats where
  openPorts : ℕ
  sslIssues : ℕ
  httpIssues : ℕ
deriving Repr, DecidableEq

/-- The JS expression `v ? Object.keys(v).length : 0`. -/
def condKeyCount (v : JSVal) : Except String ℕ :=
  if v.truthy then do
    let ks ← objectKeys v
    pure ks.length
  else pure 0

/-- The JS expression `results.port_scan?.tcp ?
Object.keys(results.port_scan.tcp).length : 0`, given the already-read
test value of `results.port_scan?.tcp`. -/
def openPortsExpr (results tcpTest : JSVal) : Except String ℕ :=
  if tcpTest.truthy then do
    let ps2 ← results.getField "port_scan"
    let tcp ← ps2.getField "tcp"
    let ks ← objectKeys tcp
    pure ks.length
  else pure 0

/-- `getNetworkStats` from CodeReviewSection.jsx (lines 1038-1046). -/
def getNetworkStats (results : JSVal) : Except String NetworkStats :=
  if !results.truthy then .ok ⟨0, 0, 0⟩
  else do
    let ps ← results.getField "port_scan"
    let tcpTest ← ps.optField "tcp"
    let openPorts ← openPortsExpr results tcpTest
    let ssl ← results.getField "ssl_security_findings"
    let sslIssues ← condKeyCount ssl
    let http ← results.getField "http_security_findings"
    let httpIssues ← condKeyCount http
    pure ⟨openPorts, sslIssues, httpIssues⟩

/-- The record returned by `getCodeStats`. -/
structure CodeStats where
  totalFiles : ℕ
  completedFiles : ℕ
  errorFiles : ℕ
deriving Repr, DecidableEq

/-- `Object.values(results).filter(r => r.status === s).length`. -/
def countWithStatus : List JSVal → String → Except String ℕ
  | [], _ => .ok 0
  | r :: rest, s => do
    let st ← r.getField "status"
    let n ← countWithStatus rest s
    pure (if jsStrEq st s then n + 1 else n)

/-- `getCodeStats` from CodeReviewSection.jsx (lines 1048-1056). -/
def getCodeStats (results : JSVal) : Except String CodeStats :=
  if !results.truthy then .ok ⟨0, 0, 0⟩
  else do
    let ks ← objectKeys results
    let vs ← objectValues results
    let completedFiles ← countWithStatus vs "completed"
    let errorFiles ← countWithStatus vs "error"
    pure ⟨ks.length, completedFiles, errorFiles⟩

/-- JavaScript `Math.round` on an exact rational. -/
def jsRound (q : ℚ) : ℤ := ⌊q + 1 / 2⌋

/-- The arithmetic core of `calculateSecurityScore` (CodeReviewSection.jsx
lines 1076-1092), as a function of the two stats records. -/
def scoreFromStats (net : NetworkStats) (code : CodeStats) : ℤ :=
  let score : ℚ := 100
  let score := score - net.sslIssues * 15
  let score := score - net.httpIssues * 10
  let score := score - max 0 ((net.openPorts : ℚ) - 3) * 5
  let score :=
    if code.totalFiles > 0 then
      score - ((code.errorFiles : ℚ) / (code.totalFiles : ℚ)) * 25
    else score
  max 0 (min 100 (jsRound score))

/-- `calculateSecurityScore`, reading both stats from the dynamic results. -/
def calculateSecurityScore (networkResults fileResults : JSVal) :
    Except String ℤ := do
  let net ← getNetworkStats networkResults
  let code ← getCodeStats fileResults
  pure (scoreFromStats net code)

/-- The raw (unclamped, unrounded) score formula exactly as the
specification words it, for comparison with the code. -/
def specScoreRaw (sslIssueCount httpIssueCount openPortCount
    totalReviewedFiles failedReviewCount : ℕ) : ℚ :=
  let base : ℚ := 100 - sslIssueCount * 15 - httpIssueCount * 10 -
    max 0 ((openPortCount : ℚ) - 3) * 5
  if totalReviewedFiles > 0 then
    base - ((failedReviewCount : ℚ) / (totalReviewedFiles : ℚ)) * 25
  else base

/-- `clamp(specScoreRaw, 0, 100)`: the score exactly as the specification
claims it, with no rounding step. -/
def specScoreClamped (sslIssueCount httpIssueCount openPortCount
    totalReviewedFiles failedReviewCount : ℕ) : ℚ :=
  max 0 (min 100 (specScoreRaw sslIssueCount httpIssueCount openPortCount
    totalReviewedFiles failedReviewCount))

/-! ## NetworkScanSection.jsx: product extraction and CVE enrichment -/

/-- One entry of the `tcp` port table of a scan response; every field is
optional in the raw JSON. -/
structure PortInfo where
  name : Option String := none
  product : Option String := none
  version : Option String := none
  state : Option String := none
  extrainfo : Option String := none

/-- The `port_scan` section of a scan response. -/
structure PortScan where
  tcp : List (String × PortInfo)

/-- A network scan response, with the new (`port_scan.tcp`) and legacy
(`tcp`) port-table locations both optional. -/
structure ScanResults where
  port_scan : Option PortScan := none
  tcp : Option (List (String × PortInfo)) := none

/-- An entry of the `products` list built by
`extractProductsFromScanResults`. -/
structure ProductInfo where
  port : String
  product : String
  version : String
  service : String
deriving Repr, DecidableEq

/-- The body of the `Object.entries(...).forEach` push loop shared by the
two branches of `extractProductsFromScanResults`. -/
def extractEntries (entries : List (String × PortInfo)) : List ProductInfo :=
  entries.filterMap (fun e =>
    match e.2.product with
    | some p =>
      if p != "" && jsTrim p != "" then
        some { port := e.1
               product := jsTrim p
               version := match e.2.version with
                 | some v => if v != "" then jsTrim v else ""
                 | none => ""
               service := match e.2.name with
                 | some n => if n != "" then n else "unknown"
                 | none => "unknown" }
      else none
    | none => none)

/-- `extractProductsFromScanResults` (NetworkScanSection.jsx lines 61-97):
collects product fingerprints from the new structure and then from the
legacy structure. -/
def extractProductsFromScanResults (results : ScanResults) : List ProductInfo :=
  (match results.port_scan with
   | some psc => extractEntries psc.tcp
   | none => []) ++
  (match results.tcp with
   | some t => extractEntries t
   | none => [])

/-- A CVE record `{id, description}` from the lookup backend. -/
structure Cve where
  id : String
  description : String
deriving Repr, DecidableEq

/-- An entry of the `cveResults` map built by `fetchCveData`. -/
structure CveEntry where
  cves : List Cve
  error : Option String
  port : String
  service : String
  version : String
deriving Repr, DecidableEq

/-- Outcome of one `fetch` of `/api/cve/lookup`: a parsed success body, a
non-ok HTTP response, or a thrown error (network failure etc.). -/
inductive FetchOutcome where
  | success (cves : List Cve) (err : Option String)
  | httpError
  | thrown (msg : String)
deriving Repr, DecidableEq

/-- Observable actions of the enrichment loop: an outbound lookup for a
product, or a `setTimeout` suspension of `ms` milliseconds. -/
inductive EnrichAction where
  | lookup (product : String)
  | delay (ms : ℕ)
deriving Repr, DecidableEq

/-- Assignment `m[k] = v` on an object used as a dictionary: overwrites in
place if the key exists, appends otherwise. -/
def setKey (m : List (String × CveEntry)) (k : String) (v : CveEntry) :
    List (String × CveEntry) :=
  if m.any (fun p => p.1 == k) then
    m.map (fun p => if p.1 == k then (k, v) else p)
  else m ++ [(k, v)]

/-- `m[k]` read on the dictionary. -/
def getKey (m : List (String × CveEntry)) (k : String) : Option CveEntry :=
  (m.find? (fun p => p.1 == k)).map (·.2)

/-- The `for (const productInfo of products)` loop of `fetchCveData`
(NetworkScanSection.jsx lines 99-147). The surrounding `try`/`catch` wraps
the whole loop, so a thrown fetch terminates the loop and the partial
`cveResults` accumulated so far is returned; a non-ok HTTP response is
recorded as an error entry and the loop continues. Returns the action
trace together with the final `cveResults`. -/
def fetchCveDataLoop (oracle : String → String → FetchOutcome) :
    List ProductInfo → List (String × CveEntry) →
    List EnrichAction × List (String × CveEntry)
  | [], acc => ([], acc)
  | p :: rest, acc =>
    if p.product != "" then
      match oracle p.product p.version with
      | .thrown _ => ([.lookup p.product], acc)
      | .success cves err =>
        let entry : CveEntry :=
          { cves := cves, error := err, port := p.port,
            service := p.service, version := p.version }
        let r := fetchCveDataLoop oracle rest (setKey acc p.product entry)
        (.lookup p.product :: .delay 1000 :: r.1, r.2)
      | .httpError =>
        let entry : CveEntry :=
          { cves := [], error := some "Failed to fetch CVE data",
            port := p.port, service := p.service, version := p.version }
        let r := fetchCveDataLoop oracle rest (setKey acc p.product entry)
        (.lookup p.product :: .delay 1000 :: r.1, r.2)
    else fetchCveDataLoop oracle rest acc

/-- `fetchCveData` entered with the empty `cveResults` dictionary. -/
def fetchCveData (oracle : String → String → FetchOutcome)
    (products : List ProductInfo) :
    List EnrichAction × List (String × CveEntry) :=
  fetchCveDataLoop oracle products []

/-- Number of outbound lookups for a given product name in a trace. -/
def countLookupsFor (q : String) (tr : List EnrichAction) : ℕ :=
  tr.countP (fun a => match a with
    | .lookup p => p == q
    | _ => false)

/-- Total suspension time of a trace in milliseconds. -/
def totalDelay : List EnrichAction → ℕ
  | [] => 0
  | .delay m :: rest => m + totalDelay rest
  | .lookup _ :: rest => totalDelay rest

/-- After a lookup has been seen, `acc` milliseconds of suspension have
accumulated since it; every further lookup must wait at least `d`. -/
def wellSpacedAux (d acc : ℕ) : List EnrichAction → Bool
  | [] => true
  | .delay m :: rest => wellSpacedAux d (acc + m) rest
  | .lookup _ :: rest => decide (d ≤ acc) && wellSpacedAux d 0 rest

/-- Between any two consecutive lookups of the trace at least `d`
milliseconds of suspension elapse. -/
def wellSpaced (d : ℕ) : List EnrichAction → Bool
  | [] => true
  | .delay _ :: rest => wellSpaced d rest
  | .lookup _ :: rest => wellSpacedAux d 0 rest

/-! ## NetworkScanSection.jsx: scan step progress -/

/-- The ids of `SCAN_STEPS`. -/
def SCAN_STEPS : List String :=
  ["port_scan", "ssl_check", "http_check", "vulnerability", "cve_lookup"]

/-- The `(currentScanStep, networkProgress)` states produced by the
simulated-progress loop of `handleNetworkScan` (lines 157-163): for each
`i < SCAN_STEPS.length - 1` it sets step `i` and progress
`(i / SCAN_STEPS.length) * 80`. -/
def scanSimulatedStates : List (ℕ × ℚ) :=
  (List.range (SCAN_STEPS.length - 1)).map
    (fun i => (i, ((i : ℚ) / (SCAN_STEPS.length : ℚ)) * 80))

/-- The full chronological `(currentScanStep, networkProgress)` states of a
successful `handleNetworkScan` run (lines 149-205): the simulated loop,
then progress 80 with the CVE step (index 4), then completion at 100. -/
def handleNetworkScanStates : List (ℕ × ℚ) :=
  scanSimulatedStates ++ [(4, 80), (4, 100)]

/-- `getSecurityFindingsCount` (NetworkScanSection.jsx lines 288-301):
counts the keys of the two findings maps, guarded by truthiness and
`typeof === 'object'`. -/
def getSecurityFindingsCount (results : JSVal) : Except String (ℕ × ℕ) := do
  let ssl ← results.getField "ssl_security_findings"
  let sslCount ←
    if ssl.truthy && jsTypeofObject ssl then do
      let ks ← objectKeys ssl
      pure ks.length
    else pure (0 : ℕ)
  let http ← results.getField "http_security_findings"
  let httpCount ←
    if http.truthy && jsTypeofObject http then do
      let ks ← objectKeys http
      pure ks.length
    else pure (0 : ℕ)
  pure (sslCount, httpCount)

/-! ## CodeReviewSection.jsx: per-file review and batch loop -/

/-- Outcome of one `fetch` of `/api/review/...`: an ok response with parsed
JSON body, a non-ok HTTP response, or a thrown error. -/
inductive ReviewOutcome where
  | success (data : JSVal)
  | httpFail (status : ℕ) (statusText : String)
  | thrown (msg : String)

/-- One entry of the `fileResults` map. -/
structure FileRecord where
  status : String
  result : Option JSVal
  error : Option String

/-- The entry written by `handleZipUpload` for each extracted file. -/
def initialFileRecord : FileRecord :=
  { status := "pending", result := none, error := none }

/-- `error.message || "Unknown error occurred"`. -/
def errMessage (msg : String) : String :=
  if msg == "" then "Unknown error occurred" else msg

/-- The record finally stored by `reviewSingleFile` (CodeReviewSection.jsx
lines 90-134) for a given fetch outcome: a completed record carrying
`data.result || "No response received from server"`, or an error record
carrying the caught message (non-ok responses are thrown as
`HTTP status: statusText` and caught by the same handler; reading
`.result` off a `null` body also throws and is caught). -/
def finalReviewRecord (outcome : ReviewOutcome) : FileRecord :=
  match outcome with
  | .success data =>
    match data.getField "result" with
    | .ok r =>
      { status := "completed",
        result := some (jsOr r (.str "No response received from server")),
        error := none }
    | .error e =>
      { status := "error", result := none, error := some (errMessage e) }
  | .httpFail status statusText =>
    { status := "error", result := none,
      error := some (errMessage ("HTTP " ++ toString status ++ ": " ++ statusText)) }
  | .thrown msg =>
    { status := "error", result := none, error := some (errMessage msg) }

/-- `reviewSingleFile` as a function of the backend's behaviour for the
given filename and source. -/
def reviewSingleFile (oracle : String → String → ReviewOutcome)
    (filename sourceCode : String) : FileRecord :=
  finalReviewRecord (oracle filename sourceCode)

/-- The individual `setFileResults` updates a file record goes through:
creation at upload, the `processing` write at the start of
`reviewSingleFile` (which keeps the previous result and error), and the
final write for the fetch outcome. -/
inductive ReviewEvent where
  | upload
  | beginReview
  | endReview (outcome : ReviewOutcome)

/-- Apply one update to a file record. -/
def reviewStep (r : FileRecord) : ReviewEvent → FileRecord
  | .upload => initialFileRecord
  | .beginReview => { r with status := "processing" }
  | .endReview outcome => finalReviewRecord outcome

/-- The sequential `for (const filename of filenames)` loop of
`handleCodeReview` (lines 136-152): reviews each file in order, counts it
as processed whatever the outcome, and reports progress
`completed / filenames.length * 100` after each unit. Returns the per-file
records in processing order and the chronological progress reports. -/
def runBatch (oracle : String → String → ReviewOutcome) (n : ℕ) :
    List (String × String) → ℕ →
    List (String × FileRecord) × List ℚ
  | [], _ => ([], [])
  | (filename, src) :: rest, completed =>
    let record := reviewSingleFile oracle filename src
    let completed := completed + 1
    let r := runBatch oracle n rest completed
    ((filename, record) :: r.1, ((completed : ℚ) / (n : ℚ)) * 100 :: r.2)

/-- `handleCodeReview` on the ordered file list extracted from the zip
(an empty upload returns immediately). -/
def handleCodeReview (oracle : String → String → ReviewOutcome)
    (zipFiles : List (String × String)) :
    List (String × FileRecord) × List ℚ :=
  if zipFiles.length == 0 then ([], [])
  else runBatch oracle zipFiles.length zipFiles 0

/-! ## Solidity section (src/unnamed/part_001): findings extraction -/

/-- The normalized finding object built for each vulnerability. -/
structure ContractFinding where
  id : JSVal
  title : JSVal
  impact : JSVal
  confidence : JSVal
  type : JSVal
  patch : JSVal

/-- The severity-bucketed findings catalog. -/
structure Findings where
  high : List ContractFinding
  medium : List ContractFinding
  low : List ContractFinding
  informational : List ContractFinding
  optimization : List ContractFinding

/-- The initial empty catalog. -/
def emptyFindings : Findings := ⟨[], [], [], [], []⟩

/-- `v?.toLowerCase()`: undefined through `null`/`undefined`, lowercases a
string, throws on any other receiver. -/
def optToLowerCase (v : JSVal) : Except String JSVal :=
  match v with
  | .undefinedVal => .ok .undefinedVal
  | .null => .ok .undefinedVal
  | .str s => .ok (.str (jsToLower s))
  | _ => .error "TypeError: toLowerCase is not a function"

/-- The body of the `results.vulnerabilities.forEach` loop of
`extractFindingsFromResults` (src/unnamed/part_001 lines 79-123). -/
def addVuln (acc : Findings) (vuln : JSVal) : Except String Findings := do
  let impRaw ← vuln.getField "impact"
  let impLower ← optToLowerCase impRaw
  let impact := jsOr impLower (.str "informational")
  let id0 ← vuln.getField "id"
  let desc ← vuln.getField "description"
  let conf ← vuln.getField "confidence"
  let ty ← vuln.getField "type"
  let patch ← vuln.getField "patch"
  let finding : ContractFinding :=
    { id := jsOr id0 (.str "unknown"),
      title := jsOr desc (.str "No description available"),
      impact := jsOr impRaw (.str "Unknown"),
      confidence := jsOr conf (.str "Medium"),
      type := jsOr ty (.str "unknown"),
      patch := jsOr patch (.str "No patch provided") }
  if jsStrEq impact "high" then
    pure { acc with high := acc.high ++ [finding] }
  else if jsStrEq impact "medium" then
    pure { acc with medium := acc.medium ++ [finding] }
  else if jsStrEq impact "low" then
    pure { acc with low := acc.low ++ [finding] }
  else if jsStrEq impact "optimization" then
    pure { acc with optimization := acc.optimization ++ [finding] }
  else
    pure { acc with informational := acc.informational ++ [finding] }

/-- `extractFindingsFromResults`: buckets `results.vulnerabilities` by
impact when that field is a (truthy) array, and returns the empty catalog
otherwise. -/
def extractFindingsFromResults (results : JSVal) : Except String Findings := do
  let vulns ← results.getField "vulnerabilities"
  if vulns.truthy && isArray vulns then
    match vulns with
    | .arr xs => xs.foldlM addVuln emptyFindings
    | _ => pure emptyFindings
  else
    pure emptyFindings

/-! ## CodeReviewSection.jsx: PDF report section structure -/

/-- The section headers `generatePDF` (lines ~651-1007) can emit, in
order of the `addSectionHeader` calls. -/
inductive SectionTag where
  | tableOfContents
  | executiveSummary
  | networkSecurityAnalysis
  | openPorts
  | sslTlsSecurity
  | httpSecurity
  | sourceCodeReview
  | fileSection (filename : String)
  | securityRecommendations
deriving Repr, DecidableEq

/-- The guard of the network section (line 801):
`networkResults && Object.keys(networkResults).length > 0 &&
networkResults.port_scan?.tcp`. -/
def networkSectionCond (networkResults : JSVal) : Except String Bool :=
  if !networkResults.truthy then .ok false
  else
    match objectKeys networkResults with
    | .error e => .error e
    | .ok ks =>
      if ks.length == 0 then .ok false
      else
        match networkResults.getField "port_scan" with
        | .error e => .error e
        | .ok ps =>
          match ps.optField "tcp" with
          | .error e => .error e
          | .ok tcp => .ok tcp.truthy

/-- The JS pattern `if (m && Object.keys(m).length > 0) { addSectionHeader(tag) }`:
the header list contributed by one findings map. -/
def keyedSubHeader (m : JSVal) (tag : SectionTag) :
    Except String (List SectionTag) :=
  if m.truthy then do
    let ks ← objectKeys m
    pure (if ks.length > 0 then [tag] else [])
  else pure []

/-- The same guard as a boolean: the findings map is truthy and has at
least one key. -/
def keyedSubCond (m : JSVal) : Except String Bool :=
  if m.truthy then do
    let ks ← objectKeys m
    pure (decide (0 < ks.length))
  else pure false

/-- The guard of a findings sub-section, read off the scan result. -/
def findingsSubCond (networkResults : JSVal) (field : String) :
    Except String Bool := do
  let m ← networkResults.getField field
  keyedSubCond m

/-- The sub-section headers emitted inside the network section
(lines 801-904). -/
def networkSubHeaders (networkResults : JSVal) :
    Except String (List SectionTag) := do
  let ps ← networkResults.getField "port_scan"
  let tcp ← ps.getField "tcp"
  let openPortsHdr ← keyedSubHeader tcp .openPorts
  let ssl ← networkResults.getField "ssl_security_findings"
  let sslHdr ← keyedSubHeader ssl .sslTlsSecurity
  let http ← networkResults.getField "http_security_findings"
  let httpHdr ← keyedSubHeader http .httpSecurity
  pure (openPortsHdr ++ sslHdr ++ httpHdr)

/-- The per-file headers of the code review section (lines 933-987); each
file's block reads `result.status`, which throws on a malformed entry. -/
def fileSectionHeaders : List (String × JSVal) → Except String (List SectionTag)
  | [] => .ok []
  | (filename, r) :: rest => do
    let _ ← r.getField "status"
    let tl ← fileSectionHeaders rest
    pure (SectionTag.fileSection filename :: tl)

/-- The network section and its sub-headers, guarded by the line-801
condition. -/
def networkSectionHeaders (networkResults : JSVal) (cond : Bool) :
    Except String (List SectionTag) :=
  if cond then do
    let subs ← networkSubHeaders networkResults
    pure (SectionTag.networkSecurityAnalysis :: subs)
  else pure []

/-- The `Object.entries` view of the file-results value. -/
def codeEntries (fileResults : JSVal) : List (String × JSVal) :=
  match fileResults with
  | .obj kvs => kvs
  | .arr xs => xs.enum.map (fun p => (toString p.1, p.2))
  | _ => []

/-- The code review section of the report (line 909 guard:
`fileResults && Object.keys(fileResults).length > 0`). -/
def codeSectionHeaders (fileResults : JSVal) :
    Except String (List SectionTag) :=
  if fileResults.truthy then
    objectKeys fileResults >>= fun ks =>
      if ks.length > 0 then
        fileSectionHeaders (codeEntries fileResults) >>= fun files =>
          Except.ok (SectionTag.sourceCodeReview :: files)
      else .ok []
  else .ok []

/-- The ordered list of section headers emitted by a `generatePDF` run:
table of contents and executive summary (whose text evaluates both stats
and the score), then the conditional network and code sections, then the
recommendations section, which is always present. -/
def generatePDFSectionHeaders (networkResults fileResults : JSVal) :
    Except String (List SectionTag) := do
  let _ ← getNetworkStats networkResults
  let _ ← getCodeStats fileResults
  let _ ← calculateSecurityScore networkResults fileResults
  let netCond ← networkSectionCond networkResults
  let netSecs ← networkSectionHeaders networkResults netCond
  let codeSecs ← codeSectionHeaders fileResults
  pure ([SectionTag.tableOfContents, SectionTag.executiveSummary] ++
    netSecs ++ codeSecs ++ [SectionTag.securityRecommendations])

end NullScan

namespace NullScan

/-! ## General helper lemmas -/

theorem bind_ok_of_ok {α β : Type} {x : Except String α} {a : α}
    (f : α → Except String β) (h : x = .ok a) : (x >>= f) = f a := by
  rw [h]; rfl

theorem bind_ok_inv {α β : Type} {x : Except String α}
    {f : α → Except String β} {b : β} (h : (x >>= f) = .ok b) :
    ∃ a, x = .ok a ∧ f a = .ok b := by
  cases x with
  | error e => exact absurd h (by simp [Bind.bind, Except.bind])
  | ok a => exact ⟨a, rfl, by simpa [Bind.bind, Except.bind] using h⟩

theorem except_pure_eq {α : Type} (a : α) :
    (pure a : Except String α) = .ok a := rfl

/-! ## Claim C2: the security score -/

/-- The code's score equals the specification's raw formula with
JavaScript rounding applied before the clamp. -/
theorem scoreFromStats_eq_round (net : NetworkStats) (code : CodeStats) :
    scoreFromStats net code =
      max 0 (min 100 (jsRound (specScoreRaw net.sslIssues net.httpIssues
        net.openPorts code.totalFiles code.errorFiles))) := rfl

/-- C2 counterexample: with no network findings, 3 reviewed files and 1
failure, the code computes `round(100 - 25/3) = 92`, while the claimed
formula `clamp(100 - (1/3)*25, 0, 100)` equals `275/3`, which is not an
integer; the claimed equality fails. -/
theorem c2_security_score_counterexample :
    ((scoreFromStats ⟨0, 0, 0⟩ ⟨3, 2, 1⟩ : ℤ) : ℚ) ≠
      specScoreClamped 0 0 0 3 1 := by
  have h1 : scoreFromStats ⟨0, 0, 0⟩ ⟨3, 2, 1⟩ = 92 := by
    norm_num [scoreFromStats, jsRound]
  have h2 : specScoreClamped 0 0 0 3 1 = 275 / 3 := by
    norm_num [specScoreClamped, specScoreRaw]
  rw [h1, h2]; norm_num

/-- C2 (amended): for every combination of inputs the computed security
score equals `clamp(round(100 - ssl*15 - http*10 - max(0, ports-3)*5 -
(failed/total)*25), 0, 100)` — i.e. the specification formula with
JavaScript `Math.round` applied before clamping (the review term only when
`totalFiles > 0`) — it is an integer in `[0, 100]`, and for
sslIssueCount=2, httpIssueCount=1, openPortCount=5, totalReviewedFiles=10,
failedReviewCount=2 it equals 45. -/
theorem c2_security_score :
    (∀ (net : NetworkStats) (code : CodeStats),
      scoreFromStats net code =
        max 0 (min 100 (jsRound (specScoreRaw net.sslIssues net.httpIssues
          net.openPorts code.totalFiles code.errorFiles)))) ∧
    (∀ (net : NetworkStats) (code : CodeStats),
      0 ≤ scoreFromStats net code ∧ scoreFromStats net code ≤ 100) ∧
    scoreFromStats ⟨5, 2, 1⟩ ⟨10, 8, 2⟩ = 45 := by
  refine ⟨fun net code => scoreFromStats_eq_round net code, fun net code => ?_, ?_⟩
  · rw [scoreFromStats_eq_round]
    exact ⟨le_max_left _ _, max_le (by norm_num) (min_le_left _ _)⟩
  · norm_num [scoreFromStats, jsRound]

end NullScan

namespace NullScan

/-! ## Claim C10: issue counts are per-port key counts -/

/-- C10: `sslIssueCount` and `httpIssueCount` in both `getNetworkStats`
and `getSecurityFindingsCount` equal the number of port keys of the
respective findings maps, independently of how many findings each port
carries; in particular a single port carrying three SSL findings
contributes exactly 1. -/
theorem c10_issue_counts_count_ports :
    (∀ (tcp ssl http : List (String × JSVal)),
      getNetworkStats (.obj [("port_scan", .obj [("tcp", .obj tcp)]),
        ("ssl_security_findings", .obj ssl),
        ("http_security_findings", .obj http)]) =
        .ok ⟨tcp.length, ssl.length, http.length⟩) ∧
    (∀ (ssl http : List (String × JSVal)),
      getSecurityFindingsCount (.obj [("ssl_security_findings", .obj ssl),
        ("http_security_findings", .obj http)]) =
        .ok (ssl.length, http.length)) ∧
    getSecurityFindingsCount (.obj [("ssl_security_findings",
      .obj [("443", .arr [.str "a", .str "b", .str "c"])])]) = .ok (1, 0) := by
  refine ⟨fun tcp ssl http => ?_, fun ssl http => ?_, rfl⟩
  · simp [getNetworkStats, openPortsExpr, JSVal.getField, JSVal.optField,
      JSVal.truthy, lookupField, objectKeys, condKeyCount, Bind.bind,
      Except.bind, Pure.pure, Except.pure, List.find?]
  · simp [getSecurityFindingsCount, JSVal.getField, JSVal.truthy,
      jsTypeofObject, lookupField, objectKeys, Bind.bind, Except.bind,
      Pure.pure, Except.pure, List.find?]

/-! ## Claim C5: step progress -/

/-- The concrete state trace of a successful network scan run. -/
theorem handleNetworkScanStates_eq :
    handleNetworkScanStates =
      [(0, 0), (1, 16), (2, 32), (3, 48), (4, 80), (4, 100)] := by
  norm_num [handleNetworkScanStates, scanSimulatedStates, SCAN_STEPS,
    List.range_succ]

/-- C5 counterexample: the CVE-lookup step (index 4) is reached with
progress 80, but `floor(4 / totalSteps * capPercent) = 64`, so the claimed
formula does not hold at every reached step. -/
theorem c5_step_progress_counterexample :
    (4, (80 : ℚ)) ∈ handleNetworkScanStates ∧
    (80 : ℚ) ≠ ((⌊(4 : ℚ) / (SCAN_STEPS.length : ℚ) * 80⌋ : ℤ) : ℚ) := by
  constructor
  · rw [handleNetworkScanStates_eq]; simp
  · have h : SCAN_STEPS.length = 5 := rfl
    rw [h]; norm_num

/-- C5 (amended): for every step index `i < totalSteps - 1` reached during
the simulated loop, the progress equals
`floor(i / totalSteps * capPercent)` (with totalSteps = 5, capPercent =
80); advancing to step 2 yields progress 32; the final enrichment step
(index 4) runs at the cap 80; and completion always ends at progress
exactly 100 with step index totalSteps - 1. -/
theorem c5_step_progress :
    (∀ (i : ℕ) (q : ℚ), (i, q) ∈ handleNetworkScanStates →
      i < SCAN_STEPS.length - 1 →
      q = ((⌊(i : ℚ) / (SCAN_STEPS.length : ℚ) * 80⌋ : ℤ) : ℚ)) ∧
    (2, (32 : ℚ)) ∈ handleNetworkScanStates ∧
    (4, (80 : ℚ)) ∈ handleNetworkScanStates ∧
    handleNetworkScanStates.getLast? = some (SCAN_STEPS.length - 1, 100) := by
  have h5 : SCAN_STEPS.length = 5 := rfl
  refine ⟨fun i q hm hi => ?_, ?_, ?_, ?_⟩
  · rw [handleNetworkScanStates_eq] at hm
    rw [h5] at hi ⊢
    simp only [List.mem_cons, List.not_mem_nil, or_false, Prod.mk.injEq] at hm
    rcases hm with ⟨hi0, hq⟩ | ⟨hi0, hq⟩ | ⟨hi0, hq⟩ | ⟨hi0, hq⟩ |
      ⟨hi0, hq⟩ | ⟨hi0, hq⟩ <;> subst hi0 <;> subst hq <;>
      first
        | (exact absurd hi (by omega))
        | norm_num
  · rw [handleNetworkScanStates_eq]; simp
  · rw [handleNetworkScanStates_eq]; simp
  · rw [handleNetworkScanStates_eq, h5]; rfl

/-- Witness for C5: the claim's own instance, step 2 with totalSteps = 5
and capPercent = 80 yields progress 32 = floor(2/5*80). -/
theorem c5_step_progress_witness :
    (32 : ℚ) = ((⌊(2 : ℚ) / (SCAN_STEPS.length : ℚ) * 80⌋ : ℤ) : ℚ) :=
  c5_step_progress.1 2 32 c5_step_progress.2.1 (by norm_num [SCAN_STEPS])

end NullScan

namespace NullScan

/-! ## Enrichment loop lemmas (claims C1, C4, C6) -/

/-- Whether a fetch outcome is a thrown error. -/
def FetchOutcome.isThrown : FetchOutcome → Bool
  | .thrown _ => true
  | _ => false

theorem find?_append_some {l₂ : List (String × CveEntry)}
    (pred : String × CveEntry → Bool) {p : String × CveEntry} :
    ∀ (l₁ : List (String × CveEntry)), l₁.find? pred = some p →
      (l₁ ++ l₂).find? pred = some p := by
  intro l₁
  induction l₁ with
  | nil => intro h; exact absurd h (by simp)
  | cons q rest ih =>
    intro h
    cases hq : pred q with
    | true =>
      rw [List.find?_cons_of_pos _ hq] at h
      rw [List.cons_append, List.find?_cons_of_pos _ hq]
      exact h
    | false =>
      rw [List.find?_cons_of_neg _ (by simp [hq])] at h
      rw [List.cons_append, List.find?_cons_of_neg _ (by simp [hq])]
      exact ih h

theorem find?_append_none {l₂ : List (String × CveEntry)}
    (pred : String × CveEntry → Bool) :
    ∀ (l₁ : List (String × CveEntry)), l₁.find? pred = none →
      (l₁ ++ l₂).find? pred = l₂.find? pred := by
  intro l₁
  induction l₁ with
  | nil => intro _; rfl
  | cons q rest ih =>
    intro h
    cases hq : pred q with
    | true => rw [List.find?_cons_of_pos _ hq] at h; exact absurd h (by simp)
    | false =>
      rw [List.find?_cons_of_neg _ (by simp [hq])] at h
      rw [List.cons_append, List.find?_cons_of_neg _ (by simp [hq])]
      exact ih h

theorem find?_map_overwrite (k : String) (v : CveEntry) :
    ∀ (m : List (String × CveEntry)),
      m.any (fun p => p.1 == k) = true →
      (m.map (fun p => if p.1 == k then (k, v) else p)).find?
        (fun p => p.1 == k) = some (k, v) := by
  intro m
  induction m with
  | nil => intro h; simp at h
  | cons p rest ih =>
    intro hany
    rw [List.map_cons]
    cases hp : (p.1 == k) with
    | true =>
      rw [if_pos rfl, List.find?_cons_of_pos _ (by simp)]
    | false =>
      rw [if_neg (by simp), List.find?_cons_of_neg _ (by simp [hp])]
      refine ih ?_
      simpa [hp] using hany

theorem find?_append_fresh (k : String) (v : CveEntry) :
    ∀ (m : List (String × CveEntry)),
      m.any (fun p => p.1 == k) = false →
      (m ++ [(k, v)]).find? (fun p => p.1 == k) = some (k, v) := by
  intro m
  induction m with
  | nil =>
    intro _
    rw [List.nil_append, List.find?_cons_of_pos _ (by simp)]
  | cons p rest ih =>
    intro hany
    simp only [List.any_cons, Bool.or_eq_false_iff] at hany
    rw [List.cons_append, List.find?_cons_of_neg _ (by simp [hany.1])]
    exact ih hany.2

theorem getKey_setKey_self (m : List (String × CveEntry)) (k : String)
    (v : CveEntry) : getKey (setKey m k v) k = some v := by
  unfold setKey getKey
  cases hany : m.any (fun p => p.1 == k) with
  | true => rw [if_pos rfl, find?_map_overwrite k v m hany]; rfl
  | false => rw [if_neg (by simp), find?_append_fresh k v m hany]; rfl

theorem find?_map_overwrite_ne (k' : String) (v : CveEntry) (k : String)
    (hne : k' ≠ k) :
    ∀ (m : List (String × CveEntry)),
      (m.map (fun p => if p.1 == k' then (k', v) else p)).find?
        (fun p => p.1 == k) = m.find? (fun p => p.1 == k) := by
  intro m
  induction m with
  | nil => rfl
  | cons p rest ih =>
    rw [List.map_cons]
    cases hp : (p.1 == k') with
    | true =>
      have hpk : (p.1 == k) = false := by
        have h2 : p.1 = k' := by simpa using hp
        simp [h2, hne]
      rw [if_pos rfl, List.find?_cons_of_neg _ (by simp [hne]),
        List.find?_cons_of_neg _ (by simp [hpk]), ih]
    | false =>
      rw [if_neg (by simp)]
      cases hpk : (p.1 == k) with
      | true =>
        rw [List.find?_cons_of_pos _ (by simp [hpk]),
          List.find?_cons_of_pos _ (by simp [hpk])]
      | false =>
        rw [List.find?_cons_of_neg _ (by simp [hpk]),
          List.find?_cons_of_neg _ (by simp [hpk]), ih]

theorem getKey_setKey_ne (m : List (String × CveEntry)) (k' k : String)
    (v : CveEntry) (hne : k' ≠ k) :
    getKey (setKey m k' v) k = getKey m k := by
  unfold setKey getKey
  cases hany : m.any (fun p => p.1 == k') with
  | true => rw [if_pos rfl, find?_map_overwrite_ne k' v k hne m]
  | false =>
    rw [if_neg (by simp)]
    cases hm : m.find? (fun p => p.1 == k) with
    | some p => rw [find?_append_some _ m hm]
    | none =>
      rw [find?_append_none _ m hm,
        List.find?_cons_of_neg _ (by simp [hne])]
      rfl

theorem setKey_keys (m : List (String × CveEntry)) (k : String)
    (v : CveEntry) :
    (setKey m k v).map (·.1) =
      if m.any (fun p => p.1 == k) then m.map (·.1)
      else m.map (·.1) ++ [k] := by
  unfold setKey
  cases hany : m.any (fun p => p.1 == k) with
  | true =>
    rw [if_pos rfl, if_pos rfl, List.map_map]
    refine List.map_congr_left (fun p _ => ?_)
    cases hp : (p.1 == k) with
    | true =>
      have h2 : p.1 = k := by simpa using hp
      simp [Function.comp, hp, h2]
    | false => simp [Function.comp, hp]
  | false =>
    rw [if_neg (by simp), if_neg (by simp), List.map_append]
    rfl

end NullScan

namespace NullScan

theorem countLookupsFor_cons_lookup (q s : String)
    (tr : List EnrichAction) :
    countLookupsFor q (.lookup s :: tr) =
      countLookupsFor q tr + (if s == q then 1 else 0) := by
  simp [countLookupsFor, List.countP_cons]

theorem countLookupsFor_cons_delay (q : String) (m : ℕ)
    (tr : List EnrichAction) :
    countLookupsFor q (.delay m :: tr) = countLookupsFor q tr := by
  simp [countLookupsFor, List.countP_cons]

theorem loop_countLookups (oracle : String → String → FetchOutcome)
    (hthrow : ∀ a b, (oracle a b).isThrown = false) (q : String)
    (hq : q ≠ "") :
    ∀ (products : List ProductInfo) (acc : List (String × CveEntry)),
      countLookupsFor q (fetchCveDataLoop oracle products acc).1 =
        products.countP (fun p => p.product == q) := by
  intro products
  induction products with
  | nil => intro acc; rfl
  | cons p rest ih =>
    intro acc
    rw [List.countP_cons]
    simp only [fetchCveDataLoop]
    cases hp : (p.product != "") with
    | false =>
      have hpe : p.product = "" := by simpa using hp
      have hbeq : (p.product == q) = false := by
        rw [hpe]
        simp only [beq_eq_false_iff_ne, ne_eq]
        exact fun h => hq h.symm
      rw [if_neg (by simp), ih acc, hbeq]
      simp
    | true =>
      rw [if_pos rfl]
      cases ho : oracle p.product p.version with
      | thrown msg =>
        have := hthrow p.product p.version
        rw [ho] at this
        exact absurd this (by simp [FetchOutcome.isThrown])
      | success cves err =>
        rw [countLookupsFor_cons_lookup, countLookupsFor_cons_delay, ih]
      | httpError =>
        rw [countLookupsFor_cons_lookup, countLookupsFor_cons_delay, ih]

theorem nodup_setKey {m : List (String × CveEntry)} (k : String)
    (v : CveEntry) (h : (m.map (·.1)).Nodup) :
    ((setKey m k v).map (·.1)).Nodup := by
  rw [setKey_keys]
  cases hany : m.any (fun p => p.1 == k) with
  | true => rw [if_pos rfl]; exact h
  | false =>
    rw [if_neg (by simp)]
    have hk : k ∉ m.map (·.1) := by
      intro hmem
      obtain ⟨p, hp, hpk⟩ := List.mem_map.mp hmem
      have : m.any (fun p => p.1 == k) = true :=
        List.any_eq_true.mpr ⟨p, hp, by simp [hpk]⟩
      rw [hany] at this
      exact absurd this (by simp)
    simp [List.nodup_append, h, hk]

theorem loop_keys_nodup (oracle : String → String → FetchOutcome) :
    ∀ (products : List ProductInfo) (acc : List (String × CveEntry)),
      ((acc.map (·.1)).Nodup) →
      (((fetchCveDataLoop oracle products acc).2.map (·.1)).Nodup) := by
  intro products
  induction products with
  | nil => intro acc h; exact h
  | cons p rest ih =>
    intro acc h
    simp only [fetchCveDataLoop]
    cases hp : (p.product != "") with
    | false => rw [if_neg (by simp)]; exact ih acc h
    | true =>
      rw [if_pos rfl]
      cases ho : oracle p.product p.version with
      | thrown msg => exact h
      | success cves err => exact ih _ (nodup_setKey _ _ h)
      | httpError => exact ih _ (nodup_setKey _ _ h)

theorem loop_getKey_preserve (oracle : String → String → FetchOutcome) :
    ∀ (products : List ProductInfo) (acc : List (String × CveEntry))
      (k : String), (∀ p ∈ products, p.product ≠ k) →
      getKey (fetchCveDataLoop oracle products acc).2 k = getKey acc k := by
  intro products
  induction products with
  | nil => intro acc k _; rfl
  | cons p rest ih =>
    intro acc k hall
    simp only [fetchCveDataLoop]
    cases hp : (p.product != "") with
    | false =>
      rw [if_neg (by simp)]
      exact ih acc k (fun x hx => hall x (List.mem_cons_of_mem _ hx))
    | true =>
      rw [if_pos rfl]
      have hne : p.product ≠ k := hall p (List.mem_cons_self _ _)
      cases ho : oracle p.product p.version with
      | thrown msg => rfl
      | success cves err =>
        rw [ih _ k (fun x hx => hall x (List.mem_cons_of_mem _ hx)),
          getKey_setKey_ne _ _ _ _ hne]
      | httpError =>
        rw [ih _ k (fun x hx => hall x (List.mem_cons_of_mem _ hx)),
          getKey_setKey_ne _ _ _ _ hne]

theorem loop_getKey_mem (oracle : String → String → FetchOutcome)
    (hthrow : ∀ a b, (oracle a b).isThrown = false) :
    ∀ (products : List ProductInfo) (acc : List (String × CveEntry)),
      (products.map (·.product)).Nodup →
      ∀ p ∈ products, p.product ≠ "" →
      ∃ e, getKey (fetchCveDataLoop oracle products acc).2 p.product = some e ∧
        (oracle p.product p.version = .httpError →
          e.error = some "Failed to fetch CVE data") ∧
        (∀ cves err, oracle p.product p.version = .success cves err →
          e.cves = cves ∧ e.error = err ∧ e.port = p.port ∧
            e.version = p.version) := by
  intro products
  induction products with
  | nil => intro acc _ p hp; exact absurd hp (by simp)
  | cons q rest ih =>
    intro acc hnodup p hp hpne
    have hnodup' : (rest.map (·.product)).Nodup :=
      (List.nodup_cons.mp hnodup).2
    have hqfresh : q.product ∉ rest.map (·.product) :=
      (List.nodup_cons.mp hnodup).1
    simp only [fetchCveDataLoop]
    rcases List.mem_cons.mp hp with hpq | hprest
    · subst hpq
      cases hps : (p.product != "") with
      | false => exact absurd (by simpa using hps) hpne
      | true =>
        rw [if_pos rfl]
        cases ho : oracle p.product p.version with
        | thrown msg =>
          have := hthrow p.product p.version
          rw [ho] at this
          exact absurd this (by simp [FetchOutcome.isThrown])
        | success cves err =>
          refine ⟨⟨cves, err, p.port, p.service, p.version⟩, ?_, ?_, ?_⟩
          · rw [loop_getKey_preserve oracle rest _ p.product
              (fun x hx => fun hc => hqfresh (hc ▸ List.mem_map_of_mem _ hx)),
              getKey_setKey_self]
          · intro hcontra; exact absurd hcontra (by simp)
          · intro cves' err' hs
            cases hs
            exact ⟨rfl, rfl, rfl, rfl⟩
        | httpError =>
          refine ⟨⟨[], some "Failed to fetch CVE data", p.port, p.service,
            p.version⟩, ?_, ?_, ?_⟩
          · rw [loop_getKey_preserve oracle rest _ p.product
              (fun x hx => fun hc => hqfresh (hc ▸ List.mem_map_of_mem _ hx)),
              getKey_setKey_self]
          · intro _; rfl
          · intro cves' err' hs; exact absurd hs (by simp)
    · cases hqs : (q.product != "") with
      | false =>
        rw [if_neg (by simp)]
        exact ih acc hnodup' p hprest hpne
      | true =>
        rw [if_pos rfl]
        cases ho : oracle q.product q.version with
        | thrown msg =>
          have := hthrow q.product q.version
          rw [ho] at this
          exact absurd this (by simp [FetchOutcome.isThrown])
        | success cves err => exact ih _ hnodup' p hprest hpne
        | httpError => exact ih _ hnodup' p hprest hpne

end NullScan

namespace NullScan

theorem loop_totalDelay (oracle : String → String → FetchOutcome)
    (hthrow : ∀ a b, (oracle a b).isThrown = false) :
    ∀ (products : List ProductInfo) (acc : List (String × CveEntry)),
      totalDelay (fetchCveDataLoop oracle products acc).1 =
        1000 * products.countP (fun p => p.product != "") := by
  intro products
  induction products with
  | nil => intro acc; rfl
  | cons p rest ih =>
    intro acc
    rw [List.countP_cons]
    simp only [fetchCveDataLoop]
    cases hp : (p.product != "") with
    | false =>
      rw [if_neg (by simp), ih acc]
      simp
    | true =>
      rw [if_pos rfl]
      cases ho : oracle p.product p.version with
      | thrown msg =>
        have := hthrow p.product p.version
        rw [ho] at this
        exact absurd this (by simp [FetchOutcome.isThrown])
      | success cves err =>
        show 1000 + totalDelay _ = _
        rw [ih]
        simp
        ring
      | httpError =>
        show 1000 + totalDelay _ = _
        rw [ih]
        simp
        ring

theorem loop_wellSpacedAux (oracle : String → String → FetchOutcome)
    (hthrow : ∀ a b, (oracle a b).isThrown = false) :
    ∀ (products : List ProductInfo) (acc : List (String × CveEntry))
      (m : ℕ), 1000 ≤ m →
      wellSpacedAux 1000 m (fetchCveDataLoop oracle products acc).1 = true := by
  intro products
  induction products with
  | nil => intro acc m _; rfl
  | cons p rest ih =>
    intro acc m hm
    simp only [fetchCveDataLoop]
    cases hp : (p.product != "") with
    | false => rw [if_neg (by simp)]; exact ih acc m hm
    | true =>
      rw [if_pos rfl]
      cases ho : oracle p.product p.version with
      | thrown msg =>
        have := hthrow p.product p.version
        rw [ho] at this
        exact absurd this (by simp [FetchOutcome.isThrown])
      | success cves err =>
        show (decide (1000 ≤ m) && wellSpacedAux 1000 (0 + 1000) _) = true
        rw [decide_eq_true hm, Bool.true_and]
        exact ih _ (0 + 1000) (by omega)
      | httpError =>
        show (decide (1000 ≤ m) && wellSpacedAux 1000 (0 + 1000) _) = true
        rw [decide_eq_true hm, Bool.true_and]
        exact ih _ (0 + 1000) (by omega)

theorem loop_wellSpaced (oracle : String → String → FetchOutcome)
    (hthrow : ∀ a b, (oracle a b).isThrown = false) :
    ∀ (products : List ProductInfo) (acc : List (String × CveEntry)),
      wellSpaced 1000 (fetchCveDataLoop oracle products acc).1 = true := by
  intro products
  induction products with
  | nil => intro acc; rfl
  | cons p rest ih =>
    intro acc
    simp only [fetchCveDataLoop]
    cases hp : (p.product != "") with
    | false => rw [if_neg (by simp)]; exact ih acc
    | true =>
      rw [if_pos rfl]
      cases ho : oracle p.product p.version with
      | thrown msg =>
        have := hthrow p.product p.version
        rw [ho] at this
        exact absurd this (by simp [FetchOutcome.isThrown])
      | success cves err =>
        show wellSpacedAux 1000 (0 + 1000) _ = true
        exact loop_wellSpacedAux oracle hthrow rest _ (0 + 1000) (by omega)
      | httpError =>
        show wellSpacedAux 1000 (0 + 1000) _ = true
        exact loop_wellSpacedAux oracle hthrow rest _ (0 + 1000) (by omega)

end NullScan

namespace NullScan

/-! ## Claim C1: enrichment deduplication -/

/-- C1 counterexample: a scan result whose port table lists the same
product "nginx" at ports 80 and 8080 causes two outbound CVE lookups for
"nginx", not one. -/
theorem c1_dedup_counterexample :
    countLookupsFor "nginx"
      (fetchCveData (fun _ _ => .success [] none)
        (extractProductsFromScanResults
          { port_scan := some ⟨[("80", { product := some "nginx" }),
                               ("8080", { product := some "nginx" })]⟩ })).1
      = 2 ∧ (2 : ℕ) ≠ 1 := ⟨rfl, by decide⟩

/-- C1 (amended): for every scan result and non-throwing lookup backend,
the enrichment phase issues exactly one outbound lookup per extracted port
entry carrying the product (so k lookups when the product appears at k
ports, not one), and the result dictionary is keyed by product name with
no duplicate keys, so every fingerprint with that product is associated
with the same single (final) set of vulnerability records. -/
theorem c1_enrichment_lookups_per_entry (results : ScanResults)
    (oracle : String → String → FetchOutcome)
    (hthrow : ∀ a b, (oracle a b).isThrown = false) :
    (∀ q, q ≠ "" →
      countLookupsFor q
          (fetchCveData oracle (extractProductsFromScanResults results)).1 =
        (extractProductsFromScanResults results).countP
          (fun p => p.product == q)) ∧
    (((fetchCveData oracle
        (extractProductsFromScanResults results)).2.map (·.1)).Nodup) :=
  ⟨fun q hq => loop_countLookups oracle hthrow q hq _ [],
   loop_keys_nodup oracle _ [] (by simp)⟩

/-- Witness for C1 (amended), at the duplicated-nginx scan result and an
always-successful backend. -/
theorem c1_enrichment_lookups_per_entry_witness :
    countLookupsFor "nginx"
      (fetchCveData (fun _ _ => .success [] none)
        (extractProductsFromScanResults
          { port_scan := some ⟨[("80", { product := some "nginx" }),
                               ("8080", { product := some "nginx" })]⟩ })).1 =
      (extractProductsFromScanResults
        { port_scan := some ⟨[("80", { product := some "nginx" }),
                             ("8080", { product := some "nginx" })]⟩ }).countP
        (fun p => p.product == "nginx") :=
  (c1_enrichment_lookups_per_entry
    { port_scan := some ⟨[("80", { product := some "nginx" }),
                         ("8080", { product := some "nginx" })]⟩ }
    (fun _ _ => .success [] none) (fun _ _ => rfl)).1 "nginx" (by decide)

/-! ## Claim C4: per-product failure isolation -/

/-- C4 counterexample: with two products "alpha" and "beta" where the
lookup for "alpha" throws, the run records no `{product, error}` entry for
"alpha" and never looks up "beta": a thrown per-product failure halts
enrichment of the remaining products. -/
theorem c4_isolation_counterexample :
    fetchCveData
        (fun a _ => if a == "alpha" then FetchOutcome.thrown "boom"
          else .success [] none)
        [⟨"80", "alpha", "1.0", "svc"⟩, ⟨"8080", "beta", "2.0", "svc"⟩] =
      ([.lookup "alpha"], []) ∧
    getKey
        (fetchCveData
          (fun a _ => if a == "alpha" then FetchOutcome.thrown "boom"
            else .success [] none)
          [⟨"80", "alpha", "1.0", "svc"⟩, ⟨"8080", "beta", "2.0", "svc"⟩]).2
        "alpha" = none ∧
    countLookupsFor "beta"
        (fetchCveData
          (fun a _ => if a == "alpha" then FetchOutcome.thrown "boom"
            else .success [] none)
          [⟨"80", "alpha", "1.0", "svc"⟩, ⟨"8080", "beta", "2.0", "svc"⟩]).1
      = 0 := ⟨rfl, rfl, rfl⟩

/-- C4 (amended): a lookup that returns a non-success response is captured
as a per-product entry carrying the error message
"Failed to fetch CVE data" and enrichment of the remaining products
proceeds; but a lookup that throws terminates the loop: the run returns
only the partial results accumulated before it and no entry for the
throwing product, so enrichment of the remaining products does not
proceed. -/
theorem c4_failure_isolation :
    (∀ (products : List ProductInfo)
      (oracle : String → String → FetchOutcome),
      (∀ a b, (oracle a b).isThrown = false) →
      (products.map (·.product)).Nodup →
      ∀ p ∈ products, p.product ≠ "" →
      ∃ e, getKey (fetchCveData oracle products).2 p.product = some e ∧
        (oracle p.product p.version = .httpError →
          e.error = some "Failed to fetch CVE data")) ∧
    (∀ (p : ProductInfo) (rest : List ProductInfo)
      (oracle : String → String → FetchOutcome) (msg : String),
      p.product ≠ "" → oracle p.product p.version = .thrown msg →
      fetchCveData oracle (p :: rest) = ([.lookup p.product], [])) := by
  constructor
  · intro products oracle hthrow hnodup p hp hpne
    obtain ⟨e, he, herr, _⟩ :=
      loop_getKey_mem oracle hthrow products [] hnodup p hp hpne
    exact ⟨e, he, herr⟩
  · intro p rest oracle msg hpne ho
    unfold fetchCveData
    simp only [fetchCveDataLoop]
    rw [if_pos (by simpa using hpne), ho]

/-- Witness for C4 (amended): a single product whose lookup returns a
non-success response gets a recorded error entry, and a throwing head
product aborts the run. -/
theorem c4_failure_isolation_witness :
    (∃ e, getKey (fetchCveData (fun _ _ => FetchOutcome.httpError)
        [⟨"80", "alpha", "1.0", "svc"⟩]).2 "alpha" = some e ∧
      (FetchOutcome.httpError = FetchOutcome.httpError →
        e.error = some "Failed to fetch CVE data")) ∧
    fetchCveData (fun _ _ => FetchOutcome.thrown "boom")
        [⟨"80", "alpha", "1.0", "svc"⟩] = ([.lookup "alpha"], []) :=
  ⟨(c4_failure_isolation.1 [⟨"80", "alpha", "1.0", "svc"⟩]
      (fun _ _ => FetchOutcome.httpError) (fun _ _ => rfl) (by simp)
      ⟨"80", "alpha", "1.0", "svc"⟩ (by simp) (by decide)),
   c4_failure_isolation.2 ⟨"80", "alpha", "1.0", "svc"⟩ []
      (fun _ _ => FetchOutcome.thrown "boom") "boom" (by decide) rfl⟩

/-! ## Claim C6: rate-limited spacing -/

/-- C6: between any two consecutive outbound lookups at least the
configured 1000 ms spacing elapses, and for any 3 products to enrich the
total suspension time of the resolver is at least `2 * 1000` ms (the code
in fact sleeps after every lookup, giving `3 * 1000`). -/
theorem c6_rate_limiting (products : List ProductInfo)
    (oracle : String → String → FetchOutcome)
    (hthrow : ∀ a b, (oracle a b).isThrown = false)
    (hne : ∀ p ∈ products, p.product ≠ "") (hlen : products.length = 3) :
    2 * 1000 ≤ totalDelay (fetchCveData oracle products).1 ∧
    wellSpaced 1000 (fetchCveData oracle products).1 = true := by
  constructor
  · have hcount : products.countP (fun p => p.product != "") = 3 := by
      rw [← hlen]
      exact List.countP_eq_length.mpr (fun p hp => by simpa using hne p hp)
    unfold fetchCveData
    rw [loop_totalDelay oracle hthrow products [], hcount]
    omega
  · exact loop_wellSpaced oracle hthrow products []

/-- Witness for C6, at three concrete products and an always-successful
backend. -/
theorem c6_rate_limiting_witness :
    2 * 1000 ≤ totalDelay (fetchCveData (fun _ _ => .success [] none)
        [⟨"80", "alpha", "1.0", "svc"⟩, ⟨"8080", "beta", "2.0", "svc"⟩,
         ⟨"443", "gamma", "3.0", "svc"⟩]).1 ∧
    wellSpaced 1000 (fetchCveData (fun _ _ => .success [] none)
        [⟨"80", "alpha", "1.0", "svc"⟩, ⟨"8080", "beta", "2.0", "svc"⟩,
         ⟨"443", "gamma", "3.0", "svc"⟩]).1 = true :=
  c6_rate_limiting
    [⟨"80", "alpha", "1.0", "svc"⟩, ⟨"8080", "beta", "2.0", "svc"⟩,
     ⟨"443", "gamma", "3.0", "svc"⟩]
    (fun _ _ => .success [] none) (fun _ _ => rfl) (by decide) rfl

end NullScan

namespace NullScan

/-! ## Claim C3: the review batch loop -/

theorem finalReviewRecord_status (o : ReviewOutcome) :
    ((finalReviewRecord o).status == "completed" ||
      (finalReviewRecord o).status == "error") = true := by
  cases o with
  | success data => cases h : data.getField "result" <;> simp [finalReviewRecord, h]
  | httpFail s t => rfl
  | thrown msg => rfl

theorem finalReviewRecord_error_msg (o : ReviewOutcome) :
    (!((finalReviewRecord o).status == "error") ||
      (finalReviewRecord o).error.isSome) = true := by
  cases o with
  | success data => cases h : data.getField "result" <;> simp [finalReviewRecord, h]
  | httpFail s t => rfl
  | thrown msg => rfl

theorem finalReviewRecord_one_status (o : ReviewOutcome) :
    ((finalReviewRecord o).status == "completed").toNat +
      ((finalReviewRecord o).status == "error").toNat = 1 := by
  cases o with
  | success data => cases h : data.getField "result" <;> simp [finalReviewRecord, h]
  | httpFail s t => rfl
  | thrown msg => rfl

theorem countP_sum_one {α : Type} (p q : α → Bool) :
    ∀ l : List α, (∀ a ∈ l, (p a).toNat + (q a).toNat = 1) →
      l.countP p + l.countP q = l.length := by
  intro l
  induction l with
  | nil => intro _; rfl
  | cons a rest ih =>
    intro h
    rw [List.countP_cons, List.countP_cons, List.length_cons]
    have ha := h a (List.mem_cons_self _ _)
    have hr := ih (fun x hx => h x (List.mem_cons_of_mem _ hx))
    cases hp : p a <;> cases hq : q a <;> simp [hp, hq] at ha ⊢ <;> omega

theorem runBatch_records (oracle : String → String → ReviewOutcome)
    (n : ℕ) :
    ∀ (l : List (String × String)) (c : ℕ),
      (runBatch oracle n l c).1 =
        l.map (fun fs => (fs.1, reviewSingleFile oracle fs.1 fs.2)) := by
  intro l
  induction l with
  | nil => intro c; rfl
  | cons fs rest ih =>
    intro c
    simp only [runBatch, ih, List.map_cons]

theorem runBatch_progress (oracle : String → String → ReviewOutcome)
    (n : ℕ) :
    ∀ (l : List (String × String)) (c : ℕ),
      (runBatch oracle n l c).2 =
        (List.range l.length).map
          (fun k => (((c + k + 1 : ℕ) : ℚ) / (n : ℚ)) * 100) := by
  intro l
  induction l with
  | nil => intro c; rfl
  | cons fs rest ih =>
    intro c
    simp only [runBatch, ih, List.length_cons, List.range_succ_eq_map,
      List.map_cons, List.map_map]
    congr 1
    refine List.map_congr_left (fun k _ => ?_)
    simp only [Function.comp_apply]
    push_cast
    ring

/-- C3: the batch run processes the uploaded files one at a time in input
order, records a failed review as an error with its message while the
batch continues (it never aborts early, so it produces one record per
file), every record ends completed or failed with
`completedCount + failedCount = N`, and progress is reported as
`processed / total * 100` after each unit regardless of outcome. -/
theorem c3_batch_runner (oracle : String → String → ReviewOutcome)
    (zipFiles : List (String × String)) :
    ((handleCodeReview oracle zipFiles).1.map (·.1) =
      zipFiles.map (·.1)) ∧
    ((handleCodeReview oracle zipFiles).1.length = zipFiles.length) ∧
    ((handleCodeReview oracle zipFiles).1.all
      (fun e => e.2.status == "completed" || e.2.status == "error") = true) ∧
    ((handleCodeReview oracle zipFiles).1.countP
        (fun e => e.2.status == "completed") +
      (handleCodeReview oracle zipFiles).1.countP
        (fun e => e.2.status == "error") = zipFiles.length) ∧
    ((handleCodeReview oracle zipFiles).1.all
      (fun e => !(e.2.status == "error") || e.2.error.isSome) = true) ∧
    ((handleCodeReview oracle zipFiles).2 =
      (List.range zipFiles.length).map
        (fun k => (((k + 1 : ℕ) : ℚ) / (zipFiles.length : ℚ)) * 100)) := by
  cases zipFiles with
  | nil => exact ⟨rfl, rfl, rfl, rfl, rfl, rfl⟩
  | cons fs rest =>
    have hne : ((fs :: rest).length == 0) = false := by simp
    have hrec : (handleCodeReview oracle (fs :: rest)).1 =
        (fs :: rest).map (fun fs => (fs.1, reviewSingleFile oracle fs.1 fs.2)) := by
      unfold handleCodeReview
      rw [if_neg (by simp), runBatch_records]
    have hprog : (handleCodeReview oracle (fs :: rest)).2 =
        (List.range (fs :: rest).length).map
          (fun k => (((0 + k + 1 : ℕ) : ℚ) / ((fs :: rest).length : ℚ)) * 100) := by
      unfold handleCodeReview
      rw [if_neg (by simp), runBatch_progress]
    refine ⟨?_, ?_, ?_, ?_, ?_, ?_⟩
    · rw [hrec, List.map_map]; rfl
    · rw [hrec, List.length_map]
    · rw [hrec]
      refine List.all_eq_true.mpr (fun a ha => ?_)
      obtain ⟨fs', _, rfl⟩ := List.mem_map.mp ha
      exact finalReviewRecord_status (oracle fs'.1 fs'.2)
    · have hall : ∀ a ∈ (fs :: rest).map
          (fun fs => (fs.1, reviewSingleFile oracle fs.1 fs.2)),
          ((fun (e : String × FileRecord) => e.2.status == "completed") a).toNat +
            ((fun (e : String × FileRecord) => e.2.status == "error") a).toNat
            = 1 := by
        intro a ha
        obtain ⟨fs', _, rfl⟩ := List.mem_map.mp ha
        exact finalReviewRecord_one_status (oracle fs'.1 fs'.2)
      rw [hrec, countP_sum_one _ _ _ hall, List.length_map]
    · rw [hrec]
      refine List.all_eq_true.mpr (fun a ha => ?_)
      obtain ⟨fs', _, rfl⟩ := List.mem_map.mp ha
      exact finalReviewRecord_error_msg (oracle fs'.1 fs'.2)
    · rw [hprog]
      refine List.map_congr_left (fun k _ => ?_)
      norm_num

/-! ## Claim C9: file record status invariant -/

/-- C9: at every point after a file record's status is set — through any
sequence of upload, review-start and review-finish updates — if the status
is `completed` then a result is present and the error field is `none`, and
if the status is `error` then an error message is present and the result
field is `none`. -/
theorem c9_record_invariant (evs : List ReviewEvent) :
    (((evs.foldl reviewStep initialFileRecord).status = "completed" →
      (evs.foldl reviewStep initialFileRecord).result.isSome = true ∧
      (evs.foldl reviewStep initialFileRecord).error = none) ∧
     ((evs.foldl reviewStep initialFileRecord).status = "error" →
      (evs.foldl reviewStep initialFileRecord).error.isSome = true ∧
      (evs.foldl reviewStep initialFileRecord).result = none)) := by
  have key : ∀ (r : FileRecord),
      ((r.status = "completed" → r.result.isSome = true ∧ r.error = none) ∧
       (r.status = "error" → r.error.isSome = true ∧ r.result = none)) →
      ∀ (l : List ReviewEvent),
      (((l.foldl reviewStep r).status = "completed" →
        (l.foldl reviewStep r).result.isSome = true ∧
        (l.foldl reviewStep r).error = none) ∧
       ((l.foldl reviewStep r).status = "error" →
        (l.foldl reviewStep r).error.isSome = true ∧
        (l.foldl reviewStep r).result = none)) := by
    intro r hr l
    induction l generalizing r with
    | nil => exact hr
    | cons e rest ih =>
      rw [List.foldl_cons]
      refine ih (reviewStep r e) ?_
      cases e with
      | upload => exact ⟨fun h => by simp_all [reviewStep, initialFileRecord],
          fun h => by simp_all [reviewStep, initialFileRecord]⟩
      | beginReview =>
        exact ⟨fun h => by simp_all [reviewStep],
          fun h => by simp_all [reviewStep]⟩
      | endReview o =>
        constructor
        · intro h
          cases o with
          | success data =>
            cases hf : data.getField "result" <;>
              simp_all [reviewStep, finalReviewRecord, jsOr]
          | httpFail s t => simp_all [reviewStep, finalReviewRecord]
          | thrown msg => simp_all [reviewStep, finalReviewRecord]
        · intro h
          cases o with
          | success data =>
            cases hf : data.getField "result" <;>
              simp_all [reviewStep, finalReviewRecord, errMessage]
          | httpFail s t => simp_all [reviewStep, finalReviewRecord, errMessage]
          | thrown msg => simp_all [reviewStep, finalReviewRecord, errMessage]
  exact key initialFileRecord
    ⟨fun h => by simp_all [initialFileRecord],
     fun h => by simp_all [initialFileRecord]⟩ evs

/-- Witness for C9, at a run that uploads, starts and completes a review
with a well-formed response body. -/
theorem c9_record_invariant_witness :
    (([ReviewEvent.upload, ReviewEvent.beginReview,
        ReviewEvent.endReview (.success (.obj [("result", .str "ok")]))].foldl
        reviewStep initialFileRecord).result.isSome = true ∧
     ([ReviewEvent.upload, ReviewEvent.beginReview,
        ReviewEvent.endReview (.success (.obj [("result", .str "ok")]))].foldl
        reviewStep initialFileRecord).error = none) :=
  (c9_record_invariant [ReviewEvent.upload, ReviewEvent.beginReview,
    ReviewEvent.endReview (.success (.obj [("result", .str "ok")]))]).1 rfl

end NullScan

namespace NullScan

/-! ## Claim C7: aggregation is robust to malformed optional sections -/

theorem truthy_ne {v : JSVal} (h : v.truthy = true) :
    v ≠ .null ∧ v ≠ .undefinedVal := by
  cases v <;> simp_all [JSVal.truthy]

theorem getField_ok_of_not_null (v : JSVal) (k : String)
    (h1 : v ≠ .null) (h2 : v ≠ .undefinedVal) : ∃ r, v.getField k = .ok r := by
  cases v with
  | undefinedVal => exact absurd rfl h2
  | null => exact absurd rfl h1
  | bool b => exact ⟨_, rfl⟩
  | num q => exact ⟨_, rfl⟩
  | str s =>
    cases hk : (k == "length") with
    | true => exact ⟨.num s.length, by simp [JSVal.getField, hk]⟩
    | false => exact ⟨.undefinedVal, by simp [JSVal.getField, hk]⟩
  | arr xs =>
    cases hk : (k == "length") with
    | true => exact ⟨.num xs.length, by simp [JSVal.getField, hk]⟩
    | false => exact ⟨.undefinedVal, by simp [JSVal.getField, hk]⟩
  | obj kvs => exact ⟨_, rfl⟩

theorem objectKeys_ok_of_not_null (v : JSVal)
    (h1 : v ≠ .null) (h2 : v ≠ .undefinedVal) : ∃ ks, objectKeys v = .ok ks := by
  cases v with
  | undefinedVal => exact absurd rfl h2
  | null => exact absurd rfl h1
  | bool b => exact ⟨_, rfl⟩
  | num q => exact ⟨_, rfl⟩
  | str s => exact ⟨_, rfl⟩
  | arr xs => exact ⟨_, rfl⟩
  | obj kvs => exact ⟨_, rfl⟩

theorem optField_ok (v : JSVal) (k : String) :
    ∃ r, v.optField k = .ok r := by
  cases v with
  | undefinedVal => exact ⟨_, rfl⟩
  | null => exact ⟨_, rfl⟩
  | bool b => exact getField_ok_of_not_null (.bool b) k (by simp) (by simp)
  | num q => exact getField_ok_of_not_null (.num q) k (by simp) (by simp)
  | str s => exact getField_ok_of_not_null (.str s) k (by simp) (by simp)
  | arr xs => exact getField_ok_of_not_null (.arr xs) k (by simp) (by simp)
  | obj kvs => exact getField_ok_of_not_null (.obj kvs) k (by simp) (by simp)

theorem optField_truthy {v : JSVal} {k : String} {w : JSVal}
    (h : v.optField k = .ok w) (hw : w.truthy = true) :
    v.getField k = .ok w := by
  cases v with
  | undefinedVal =>
    simp only [JSVal.optField] at h
    cases h
    exact absurd hw (by simp [JSVal.truthy])
  | null =>
    simp only [JSVal.optField] at h
    cases h
    exact absurd hw (by simp [JSVal.truthy])
  | bool b => exact h
  | num q => exact h
  | str s => exact h
  | arr xs => exact h
  | obj kvs => exact h

theorem condKeyCount_ok (v : JSVal) : ∃ n, condKeyCount v = .ok n := by
  unfold condKeyCount
  cases ht : v.truthy with
  | false => exact ⟨0, by rw [if_neg (by simp)]; rfl⟩
  | true =>
    rw [if_pos rfl]
    obtain ⟨hnn, hnu⟩ := truthy_ne ht
    obtain ⟨ks, hks⟩ := objectKeys_ok_of_not_null v hnn hnu
    exact ⟨ks.length, by rw [bind_ok_of_ok _ hks]; rfl⟩

theorem getNetworkStats_total (v : JSVal) :
    ∃ s, getNetworkStats v = .ok s := by
  unfold getNetworkStats
  cases ht : v.truthy with
  | false => exact ⟨⟨0, 0, 0⟩, by rw [if_pos (by simp [ht])]⟩
  | true =>
    rw [if_neg (by simp [ht])]
    obtain ⟨hnn, hnu⟩ := truthy_ne ht
    obtain ⟨ps, hps⟩ := getField_ok_of_not_null v "port_scan" hnn hnu
    rw [bind_ok_of_ok _ hps]
    obtain ⟨tcpT, htcp⟩ := optField_ok ps "tcp"
    rw [bind_ok_of_ok _ htcp]
    have hopen : ∃ n, openPortsExpr v tcpT = Except.ok n := by
      unfold openPortsExpr
      cases htt : tcpT.truthy with
      | false => exact ⟨0, by rw [if_neg (by simp)]; rfl⟩
      | true =>
        rw [if_pos rfl]
        have hg : ps.getField "tcp" = .ok tcpT := optField_truthy htcp htt
        obtain ⟨hn1, hn2⟩ := truthy_ne htt
        obtain ⟨ks, hks⟩ := objectKeys_ok_of_not_null tcpT hn1 hn2
        exact ⟨ks.length, by
          rw [bind_ok_of_ok _ hps, bind_ok_of_ok _ hg, bind_ok_of_ok _ hks]
          rfl⟩
    obtain ⟨n, hopen⟩ := hopen
    rw [bind_ok_of_ok _ hopen]
    obtain ⟨ssl, hssl⟩ := getField_ok_of_not_null v "ssl_security_findings" hnn hnu
    rw [bind_ok_of_ok _ hssl]
    obtain ⟨ns, hns⟩ := condKeyCount_ok ssl
    rw [bind_ok_of_ok _ hns]
    obtain ⟨http, hhttp⟩ := getField_ok_of_not_null v "http_security_findings" hnn hnu
    rw [bind_ok_of_ok _ hhttp]
    obtain ⟨nh, hnh⟩ := condKeyCount_ok http
    rw [bind_ok_of_ok _ hnh]
    exact ⟨⟨n, ns, nh⟩, rfl⟩

/-- C7: for malformed or absent optional sections the aggregation
functions do not throw and report no findings: `getNetworkStats` never
throws on any input value; on an object missing all three sections it
returns zero counts; `getCodeStats` returns zero counts on a null,
undefined or empty file-result map; and `extractFindingsFromResults`
returns the empty severity buckets whenever the `vulnerabilities` field is
absent or not an array. -/
theorem c7_malformed_inputs :
    (∀ v : JSVal, ∃ s, getNetworkStats v = .ok s) ∧
    (∀ kvs : List (String × JSVal),
      lookupField kvs "port_scan" = .undefinedVal →
      lookupField kvs "ssl_security_findings" = .undefinedVal →
      lookupField kvs "http_security_findings" = .undefinedVal →
      getNetworkStats (.obj kvs) = .ok ⟨0, 0, 0⟩) ∧
    (getCodeStats .null = .ok ⟨0, 0, 0⟩ ∧
     getCodeStats .undefinedVal = .ok ⟨0, 0, 0⟩ ∧
     getCodeStats (.obj []) = .ok ⟨0, 0, 0⟩) ∧
    (∀ kvs : List (String × JSVal),
      isArray (lookupField kvs "vulnerabilities") = false →
      extractFindingsFromResults (.obj kvs) = .ok emptyFindings) := by
  refine ⟨getNetworkStats_total, fun kvs h1 h2 h3 => ?_, ⟨rfl, rfl, rfl⟩,
    fun kvs h => ?_⟩
  · simp [getNetworkStats, openPortsExpr, JSVal.truthy, JSVal.getField,
      h1, h2, h3, JSVal.optField, condKeyCount, Bind.bind, Except.bind,
      Pure.pure, Except.pure]
  · simp [extractFindingsFromResults, JSVal.getField, h, Bind.bind,
      Except.bind, Pure.pure, Except.pure]

/-- Witness for C7: a scan-result object with none of the optional
sections yields zero counts, and a contract result whose `vulnerabilities`
field is a string yields empty buckets. -/
theorem c7_malformed_inputs_witness :
    getNetworkStats (.obj [("x", .num 1)]) = .ok ⟨0, 0, 0⟩ ∧
    extractFindingsFromResults (.obj [("vulnerabilities", .str "zzz")]) =
      .ok emptyFindings :=
  ⟨c7_malformed_inputs.2.1 [("x", .num 1)] rfl rfl rfl,
   c7_malformed_inputs.2.2.2 [("vulnerabilities", .str "zzz")] rfl⟩

end NullScan

namespace NullScan

/-! ## Claim C8: section omission in the synthesized report -/

theorem fileSectionHeaders_shape :
    ∀ (entries : List (String × JSVal)) (out : List SectionTag),
      fileSectionHeaders entries = .ok out →
      ∀ t ∈ out, ∃ f, t = SectionTag.fileSection f := by
  intro entries
  induction entries with
  | nil =>
    intro out h t ht
    simp only [fileSectionHeaders] at h
    cases h
    exact absurd ht (by simp)
  | cons e rest ih =>
    intro out h t ht
    simp only [fileSectionHeaders] at h
    obtain ⟨st, hst, h⟩ := bind_ok_inv h
    obtain ⟨tl, htl, h⟩ := bind_ok_inv h
    rw [except_pure_eq] at h
    cases h
    rcases List.mem_cons.mp ht with h1 | h2
    · exact ⟨e.1, h1⟩
    · exact ih tl htl t h2

theorem codeSectionHeaders_shape (fr : JSVal) (secs : List SectionTag)
    (h : codeSectionHeaders fr = .ok secs) :
    ∀ t ∈ secs, t = SectionTag.sourceCodeReview ∨
      ∃ f, t = SectionTag.fileSection f := by
  intro t ht
  unfold codeSectionHeaders at h
  by_cases htr : fr.truthy = true
  · rw [if_pos htr] at h
    obtain ⟨ks, hks, h⟩ := bind_ok_inv h
    by_cases hlen : ks.length > 0
    · rw [if_pos hlen] at h
      obtain ⟨files, hf, h⟩ := bind_ok_inv h
      cases h
      rcases List.mem_cons.mp ht with h1 | h2
      · exact Or.inl h1
      · exact Or.inr (fileSectionHeaders_shape _ files hf t h2)
    · rw [if_neg hlen] at h
      cases h
      exact absurd ht (by simp)
  · rw [if_neg htr] at h
    cases h
    exact absurd ht (by simp)

theorem keyedSubHeader_shape (m : JSVal) (tag : SectionTag)
    (hdr : List SectionTag) (h : keyedSubHeader m tag = .ok hdr) :
    hdr = [] ∨ hdr = [tag] := by
  unfold keyedSubHeader at h
  by_cases htr : m.truthy = true
  · rw [if_pos htr] at h
    obtain ⟨ks, hks, h⟩ := bind_ok_inv h
    rw [except_pure_eq] at h
    cases h
    by_cases hlen : ks.length > 0
    · rw [if_pos hlen]; exact Or.inr rfl
    · rw [if_neg hlen]; exact Or.inl rfl
  · rw [if_neg htr] at h
    cases h
    exact Or.inl rfl

theorem keyedSubHeader_cond (m : JSVal) (tag : SectionTag)
    (hdr : List SectionTag) (b : Bool)
    (h : keyedSubHeader m tag = .ok hdr) (hc : keyedSubCond m = .ok b) :
    hdr = if b then [tag] else [] := by
  unfold keyedSubHeader at h
  unfold keyedSubCond at hc
  by_cases htr : m.truthy = true
  · rw [if_pos htr] at h hc
    obtain ⟨ks, hks, h⟩ := bind_ok_inv h
    obtain ⟨ks2, hks2, hc⟩ := bind_ok_inv hc
    rw [hks] at hks2
    cases hks2
    rw [except_pure_eq] at h hc
    cases h
    cases hc
    by_cases hlen : ks.length > 0
    · rw [if_pos hlen, if_pos (by simpa using hlen)]
    · rw [if_neg hlen, if_neg (by simpa using hlen)]
  · rw [if_neg htr] at h hc
    cases h
    cases hc
    rfl

theorem networkSubHeaders_mem (net : JSVal) (subs : List SectionTag)
    (bSsl bHttp : Bool)
    (h : networkSubHeaders net = .ok subs)
    (hs : findingsSubCond net "ssl_security_findings" = .ok bSsl)
    (hh : findingsSubCond net "http_security_findings" = .ok bHttp) :
    (SectionTag.sslTlsSecurity ∈ subs ↔ bSsl = true) ∧
    (SectionTag.httpSecurity ∈ subs ↔ bHttp = true) ∧
    SectionTag.networkSecurityAnalysis ∉ subs := by
  unfold networkSubHeaders at h
  unfold findingsSubCond at hs hh
  obtain ⟨ps, hps, h⟩ := bind_ok_inv h
  obtain ⟨tcp, htcp, h⟩ := bind_ok_inv h
  obtain ⟨openHdr, hopen, h⟩ := bind_ok_inv h
  obtain ⟨ssl, hssl, h⟩ := bind_ok_inv h
  obtain ⟨sslHdr, hsslHdr, h⟩ := bind_ok_inv h
  obtain ⟨http, hhttp, h⟩ := bind_ok_inv h
  obtain ⟨httpHdr, hhttpHdr, h⟩ := bind_ok_inv h
  rw [except_pure_eq] at h
  cases h
  obtain ⟨ssl2, hssl2, hs⟩ := bind_ok_inv hs
  rw [hssl] at hssl2
  cases hssl2
  obtain ⟨http2, hhttp2, hh⟩ := bind_ok_inv hh
  rw [hhttp] at hhttp2
  cases hhttp2
  have hsslShape := keyedSubHeader_cond ssl _ _ _ hsslHdr hs
  have hhttpShape := keyedSubHeader_cond http _ _ _ hhttpHdr hh
  have hopenShape := keyedSubHeader_shape tcp _ _ hopen
  subst hsslShape
  subst hhttpShape
  refine ⟨?_, ?_, ?_⟩
  · cases bSsl with
    | true =>
      simp only [if_pos rfl]
      rcases hopenShape with ho | ho <;> subst ho <;> simp
    | false =>
      simp only [Bool.false_eq_true, if_false]
      rcases hopenShape with ho | ho <;> subst ho <;>
        cases bHttp <;> simp
  · cases bHttp with
    | true =>
      simp only [if_pos rfl]
      rcases hopenShape with ho | ho <;> subst ho <;> simp
    | false =>
      simp only [Bool.false_eq_true, if_false]
      rcases hopenShape with ho | ho <;> subst ho <;>
        cases bSsl <;> simp
  · rcases hopenShape with ho | ho <;> subst ho <;>
      cases bSsl <;> cases bHttp <;> simp

theorem mem_report_iff (subs codeSecs : List SectionTag) (t : SectionTag)
    (h1 : t ≠ SectionTag.tableOfContents)
    (h2 : t ≠ SectionTag.executiveSummary)
    (h3 : t ≠ SectionTag.networkSecurityAnalysis)
    (h4 : t ∉ codeSecs)
    (h5 : t ≠ SectionTag.securityRecommendations) :
    (t ∈ [SectionTag.tableOfContents, SectionTag.executiveSummary] ++
        (SectionTag.networkSecurityAnalysis :: subs) ++ codeSecs ++
        [SectionTag.securityRecommendations]) ↔ t ∈ subs := by
  simp [List.mem_append, List.mem_cons, h1, h2, h3, h4, h5]

/-- C8 counterexample: a scan result carrying a non-empty SSL findings map
but no `port_scan.tcp` table produces a report with no SSL/TLS Security
sub-section (the whole network section is skipped), so "SSL sub-section if
and only if the SSL findings map is present and non-empty" fails. -/
theorem c8_section_omission_counterexample :
    generatePDFSectionHeaders
        (.obj [("ssl_security_findings", .obj [("443", .arr [])])]) .null =
      .ok [SectionTag.tableOfContents, SectionTag.executiveSummary,
           SectionTag.securityRecommendations] ∧
    SectionTag.sslTlsSecurity ∉
      [SectionTag.tableOfContents, SectionTag.executiveSummary,
       SectionTag.securityRecommendations] ∧
    findingsSubCond (.obj [("ssl_security_findings", .obj [("443", .arr [])])])
      "ssl_security_findings" = .ok true := ⟨rfl, by decide, rfl⟩

/-- C8 (amended): whenever report generation succeeds, the network section
appears if and only if the line-801 guard holds (`networkResults` is
non-empty and has a truthy `port_scan.tcp`, regardless of whether any
findings exist), and the SSL/TLS (resp. HTTP) Security sub-section appears
if and only if that guard holds AND the corresponding findings map is
present and non-empty. -/
theorem c8_section_omission (net fr : JSVal) (secs : List SectionTag)
    (bNet bSsl bHttp : Bool)
    (h : generatePDFSectionHeaders net fr = .ok secs)
    (hb : networkSectionCond net = .ok bNet)
    (hs : findingsSubCond net "ssl_security_findings" = .ok bSsl)
    (hh : findingsSubCond net "http_security_findings" = .ok bHttp) :
    (SectionTag.networkSecurityAnalysis ∈ secs ↔ bNet = true) ∧
    (SectionTag.sslTlsSecurity ∈ secs ↔ (bNet = true ∧ bSsl = true)) ∧
    (SectionTag.httpSecurity ∈ secs ↔ (bNet = true ∧ bHttp = true)) := by
  unfold generatePDFSectionHeaders at h
  obtain ⟨st1, _, h⟩ := bind_ok_inv h
  obtain ⟨st2, _, h⟩ := bind_ok_inv h
  obtain ⟨st3, _, h⟩ := bind_ok_inv h
  obtain ⟨bNet2, hb2, h⟩ := bind_ok_inv h
  rw [hb] at hb2
  cases hb2
  obtain ⟨netSecs, hnet, h⟩ := bind_ok_inv h
  obtain ⟨codeSecs, hcode, h⟩ := bind_ok_inv h
  rw [except_pure_eq] at h
  cases h
  have hcodeShape := codeSectionHeaders_shape fr codeSecs hcode
  have hcodeSsl : SectionTag.sslTlsSecurity ∉ codeSecs := by
    intro hmem
    rcases hcodeShape _ hmem with h1 | ⟨f, h2⟩ <;> simp_all
  have hcodeHttp : SectionTag.httpSecurity ∉ codeSecs := by
    intro hmem
    rcases hcodeShape _ hmem with h1 | ⟨f, h2⟩ <;> simp_all
  have hcodeNet : SectionTag.networkSecurityAnalysis ∉ codeSecs := by
    intro hmem
    rcases hcodeShape _ hmem with h1 | ⟨f, h2⟩ <;> simp_all
  cases bNet with
  | false =>
    unfold networkSectionHeaders at hnet
    rw [if_neg (by simp)] at hnet
    cases hnet
    refine ⟨?_, ?_, ?_⟩ <;> simp [hcodeSsl, hcodeHttp, hcodeNet]
  | true =>
    unfold networkSectionHeaders at hnet
    rw [if_pos rfl] at hnet
    obtain ⟨subs, hsubs, hnet⟩ := bind_ok_inv hnet
    rw [except_pure_eq] at hnet
    cases hnet
    obtain ⟨hsslIff, hhttpIff, hnetNotSub⟩ :=
      networkSubHeaders_mem net subs bSsl bHttp hsubs hs hh
    refine ⟨?_, ?_, ?_⟩
    · simp [hcodeNet, hnetNotSub]
    · rw [iff_true_intro rfl, true_and,
        mem_report_iff subs codeSecs _ (by simp) (by simp) (by simp)
          hcodeSsl (by simp)]
      exact hsslIff
    · rw [iff_true_intro rfl, true_and,
        mem_report_iff subs codeSecs _ (by simp) (by simp) (by simp)
          hcodeHttp (by simp)]
      exact hhttpIff

/-- Witness for C8 (amended), at a scan result with an open-port table and
one non-empty SSL findings map (and no HTTP findings), with no code
results. -/
theorem c8_section_omission_witness :
    (SectionTag.networkSecurityAnalysis ∈
        [SectionTag.tableOfContents, SectionTag.executiveSummary,
         SectionTag.networkSecurityAnalysis, SectionTag.openPorts,
         SectionTag.sslTlsSecurity, SectionTag.securityRecommendations] ↔
      true = true) ∧
    (SectionTag.sslTlsSecurity ∈
        [SectionTag.tableOfContents, SectionTag.executiveSummary,
         SectionTag.networkSecurityAnalysis, SectionTag.openPorts,
         SectionTag.sslTlsSecurity, SectionTag.securityRecommendations] ↔
      (true = true ∧ true = true)) ∧
    (SectionTag.httpSecurity ∈
        [SectionTag.tableOfContents, SectionTag.executiveSummary,
         SectionTag.networkSecurityAnalysis, SectionTag.openPorts,
         SectionTag.sslTlsSecurity, SectionTag.securityRecommendations] ↔
      (true = true ∧ false = true)) :=
  c8_section_omission
    (.obj [("port_scan", .obj [("tcp", .obj [("80", .obj [])])]),
           ("ssl_security_findings", .obj [("443", .arr [])])])
    .null
    [SectionTag.tableOfContents, SectionTag.executiveSummary,
     SectionTag.networkSecurityAnalysis, SectionTag.openPorts,
     SectionTag.sslTlsSecurity, SectionTag.securityRecommendations]
    true true false rfl rfl rfl rfl

end NullScan
